import Mathlib

/-!
Verification development for the function-extraction and classification engine
of the Acute_Algo backend (services/function_counter.py, services/file_scanner.py,
services/database_service.py).

The Python code is shallowly embedded: pure functions become Lean functions,
Python `float` scores become `ℚ` (every weight in the source is an exact decimal),
Python exceptions become `Option`/oracle parameters, and external effects
(tree-sitter parsing, the filesystem, file reads) become explicit input data.
-/

/-! ## Python string primitives

`pyIn pat s` is Python's substring test `pat in s`; `strCount` is Python's
non-overlapping `s.count(pat)` (scanning left to right, skipping past each
match); `lowerStr` is `s.lower()` restricted to ASCII case mapping, which is
all the fixed pattern lists exercise. -/

def pyIn (pat s : List Char) : Bool :=
  s.tails.any (fun t => pat.isPrefixOf t)

def pyInStr (pat s : String) : Bool :=
  pyIn pat.toList s.toList

/-- Auxiliary scanner for `strCount`: `k` is the number of positions still to
skip after the previous match (Python's `count` is non-overlapping). -/
def strCountGo (pat : List Char) : List Char → Nat → Nat
  | [], _ => 0
  | _ :: rest, Nat.succ k => strCountGo pat rest k
  | c :: rest, 0 =>
    if pat.isPrefixOf (c :: rest) then 1 + strCountGo pat rest (pat.length - 1)
    else strCountGo pat rest 0

/-- Python `s.count(pat)`: number of non-overlapping occurrences (for the empty
pattern Python returns `len(s) + 1`; no pattern in the source is empty). -/
def strCount (pat s : List Char) : Nat :=
  if pat.isEmpty then s.length + 1 else strCountGo pat s 0

def strCountStr (pat s : String) : Nat :=
  strCount pat.toList s.toList

def lowerStr (s : String) : String :=
  String.mk (s.toList.map Char.toLower)

/-! ## Data model (function_counter.py lines 9-39) -/

/-- Source `FunctionInfo` dataclass (function_counter.py lines 9-19). -/
structure FunctionInfo where
  name : String
  type : String
  start_line : Nat
  end_line : Nat
  line_count : Nat
  code : Option String := none
  is_algorithm : Bool := false
  algorithm_score : ℚ := 0
  classification_reason : String := ""
deriving Repr

/-- Source `FileAnalysis` dataclass (function_counter.py lines 22-30); the Python dicts
`breakdown` and `algorithm_breakdown` become insertion-ordered association lists. -/
structure FileAnalysis where
  path : String
  language : String
  function_count : Nat
  algorithm_count : Nat
  functions : List FunctionInfo
  breakdown : List (String × Nat)
  algorithm_breakdown : List (String × Nat)
deriving Repr

/-- Source `FunctionAnalysisResult` dataclass (function_counter.py lines 33-39); the
per-language stats dict becomes an association list
language ↦ (files, functions, algorithms). -/
structure FunctionAnalysisResult where
  total_functions : Nat
  total_algorithms : Nat
  total_files : Nat
  languages : List (String × Nat × Nat × Nat)
  files : List FileAnalysis
deriving Repr

/-! ## The algorithm classifier (function_counter.py lines 108-217)

The Python method accumulates `score` and `reasons` through numbered signal
blocks.  Each block below returns its score delta together with the reason
phrases it appends; `classifyBlocks` lists the blocks in source order and
`classifyScore`/`classifyReasons` fold them exactly as the accumulator does.
Weights are the source constants: 1.5 = 3/2, 0.3 = 3/10, 0.5 = 1/2,
0.8 = 4/5, 2.5 = 5/2. -/

/-- Source `utility_patterns` (lines 118-125). -/
def utilityPatterns : List String :=
  ["get", "set", "is", "has", "can", "should", "will",
   "init", "setup", "config", "load", "save", "read", "write",
   "parse", "format", "convert", "transform", "validate",
   "helper", "util", "tool", "wrapper", "handler",
   "log", "print", "debug", "trace", "error",
   "test", "mock", "stub", "fixture"]

/-- Source `algorithm_patterns` (lines 133-139). -/
def algorithmPatterns : List String :=
  ["sort", "search", "find", "calculate", "compute", "solve",
   "optimize", "minimize", "maximize", "process", "analyze",
   "algorithm", "recursive", "iterate", "traverse", "walk",
   "dfs", "bfs", "dijkstra", "binary", "merge", "quick",
   "heap", "tree", "graph", "dynamic", "greedy", "backtrack"]

/-- Source `loop_patterns` (line 149). -/
def loopPatterns : List String :=
  ["for ", "while ", "foreach", "map(", "filter(", "reduce("]

/-- Source `math_patterns` (line 167). -/
def mathPatterns : List String :=
  ["+", "-", "*", "/", "%", "**", "pow(", "sqrt(", "abs(", "min(", "max("]

/-- Source `condition_patterns` (line 174). -/
def conditionPatterns : List String :=
  ["if ", "elif ", "else:", "switch", "case", "?", "and ", "or "]

/-- Source `ds_patterns` (line 181). -/
def dsPatterns : List String :=
  ["append(", "push(", "pop(", "insert(", "remove(", "sort()", "reverse()"]

/-- Source `business_patterns` (lines 196-200). -/
def businessPatterns : List String :=
  ["business", "logic", "rule", "policy", "workflow",
   "process", "calculate", "compute", "determine",
   "evaluate", "assess", "analyze", "validate"]

/-- Source `sum(code_lower.count(p) for p in pats)`. -/
def countAll (pats : List String) (s : String) : Nat :=
  (pats.map (fun p => strCountStr p s)).sum

def countLoops (code_lower : String) : Nat :=
  countAll loopPatterns code_lower

/-- Block 1 (lines 127-130): subtract 2.0 per utility pattern in the name. -/
def utilityBlock (name_lower : String) : ℚ × List String :=
  let ms := utilityPatterns.filter (fun p => pyInStr p name_lower)
  (-2 * (ms.length : ℚ), ms.map (fun p => "utility pattern " ++ p ++ " in name"))

/-- Block 2 (lines 141-144): add 3.0 per algorithm pattern in the name. -/
def algorithmBlock (name_lower : String) : ℚ × List String :=
  let ms := algorithmPatterns.filter (fun p => pyInStr p name_lower)
  (3 * (ms.length : ℚ), ms.map (fun p => "algorithm pattern " ++ p ++ " in name"))

/-- Loop signal (lines 150-153). -/
def loopBlock (code_lower : String) : ℚ × List String :=
  let c := countLoops code_lower
  if 0 < c then (min ((c : ℚ) * (3/2)) 4, [toString c ++ " loop(s) detected"])
  else (0, [])

/-- Nested-loop signal (lines 156-159): requires more than one counted loop
construct AND a literal `for `/`while ` occurrence in the lowered code. -/
def nestedBlock (code_lower : String) : ℚ × List String :=
  if 1 < countLoops code_lower ∧
      (pyInStr "for " code_lower = true ∨ pyInStr "while " code_lower = true) then
    (2, ["nested loops detected"])
  else (0, [])

/-- Recursion signal (lines 162-164): the raw (un-lowered) name occurs in the raw
code and `return ` occurs in the lowered code. -/
def recursionBlock (name code code_lower : String) : ℚ × List String :=
  if pyInStr name code = true ∧ pyInStr "return " code_lower = true then
    (5/2, ["recursion detected"])
  else (0, [])

/-- Math signal (lines 167-171). -/
def mathBlock (code_lower : String) : ℚ × List String :=
  let c := countAll mathPatterns code_lower
  if 3 < c then (min ((c : ℚ) * (3/10)) 2, [toString c ++ " mathematical operations"])
  else (0, [])

/-- Conditional signal (lines 174-178). -/
def condBlock (code_lower : String) : ℚ × List String :=
  let c := countAll conditionPatterns code_lower
  if 2 < c then (min ((c : ℚ) * (1/2)) 2, [toString c ++ " conditional statements"])
  else (0, [])

/-- Data-structure signal (lines 181-185). -/
def dsBlock (code_lower : String) : ℚ × List String :=
  let c := countAll dsPatterns code_lower
  if 1 < c then (min ((c : ℚ) * (4/5)) 2, [toString c ++ " data structure operations"])
  else (0, [])

/-- Size signal (lines 188-193). -/
def sizeBlock (line_count : Nat) : ℚ × List String :=
  if 10 < line_count then (1, ["substantial function (" ++ toString line_count ++ " lines)"])
  else if line_count < 3 then (-1, ["very short function (" ++ toString line_count ++ " lines)"])
  else (0, [])

/-- Block 5 (lines 202-205): add 2.0 per business pattern in the name. -/
def businessBlock (name_lower : String) : ℚ × List String :=
  let ms := businessPatterns.filter (fun p => pyInStr p name_lower)
  (2 * (ms.length : ℚ), ms.map (fun p => "business logic pattern " ++ p))

/-- Block 6 (lines 208-211): Python dunder names are penalised. -/
def languageBlock (language name : String) : ℚ × List String :=
  if language = "python" ∧ pyInStr "__" name = true then
    (-2, ["magic method detected"])
  else (0, [])

/-- The signal blocks in the order the source accumulates them.  The code-based
blocks run only under `if code:` (a non-empty code string, lines 147-185);
`code_lower = code.lower() if code else ""` (line 115). -/
def classifyBlocks (func : FunctionInfo) (code : String) (language : String) :
    List (ℚ × List String) :=
  let name_lower := lowerStr func.name
  let code_lower := if code.isEmpty then "" else lowerStr code
  [utilityBlock name_lower, algorithmBlock name_lower]
    ++ (if code.isEmpty then [] else
        [loopBlock code_lower, nestedBlock code_lower,
         recursionBlock func.name code code_lower,
         mathBlock code_lower, condBlock code_lower, dsBlock code_lower])
    ++ [sizeBlock func.line_count, businessBlock name_lower, languageBlock language func.name]

/-- The raw accumulated score (`score` at line 214). -/
def classifyScore (func : FunctionInfo) (code : String) (language : String) : ℚ :=
  (classifyBlocks func code language).foldl (fun s b => s + b.1) 0

/-- The accumulated reason list (`reasons` at line 215). -/
def classifyReasons (func : FunctionInfo) (code : String) (language : String) : List String :=
  (classifyBlocks func code language).foldl (fun r b => r ++ b.2) []

/-- Source `_classify_function_as_algorithm` result (lines 213-217):
`(score > 0.5, max(0.0, score), "; ".join(reasons[:3]) or default)`. -/
def classifyFunction (func : FunctionInfo) (code : String) (language : String) :
    Bool × ℚ × String :=
  let score := classifyScore func code language
  let reasons := classifyReasons func code language
  (decide ((1:ℚ)/2 < score), max 0 score,
   if reasons.isEmpty then "no specific patterns detected"
   else String.intercalate "; " (reasons.take 3))

/-- Unfolded form of `classifyScore` as a plain sum of the block deltas. -/
theorem classifyScore_eq (func : FunctionInfo) (code : String) (language : String) :
    classifyScore func code language =
      (utilityBlock (lowerStr func.name)).1 + (algorithmBlock (lowerStr func.name)).1
      + (if code.isEmpty then 0 else
          (loopBlock (lowerStr code)).1 + (nestedBlock (lowerStr code)).1
          + (recursionBlock func.name code (lowerStr code)).1
          + (mathBlock (lowerStr code)).1 + (condBlock (lowerStr code)).1
          + (dsBlock (lowerStr code)).1)
      + (sizeBlock func.line_count).1 + (businessBlock (lowerStr func.name)).1
      + (languageBlock language func.name).1 := by
  by_cases h : code.isEmpty = true <;>
    simp [classifyScore, classifyBlocks, h] <;>
    ring

/-- Claim C4: the returned score is the raw accumulated score clamped below at 0,
and the returned boolean compares the raw, unclamped score against 0.5. -/
theorem classify_returns_clamped_score_and_raw_threshold
    (func : FunctionInfo) (code language : String) :
    (classifyFunction func code language).2.1
        = max 0 (classifyScore func code language)
    ∧ (classifyFunction func code language).1
        = decide ((1:ℚ)/2 < classifyScore func code language) :=
  ⟨rfl, rfl⟩

/-- Claim C9: the returned boolean agrees with a 0.5-threshold test on the
returned (clamped) score, because clamping only moves negative values to 0,
which still fail the strict 0.5 test. -/
theorem classify_bool_recoverable_from_clamped_score
    (func : FunctionInfo) (code language : String) :
    (classifyFunction func code language).1
      = decide ((1:ℚ)/2 < (classifyFunction func code language).2.1) := by
  show decide ((1:ℚ)/2 < classifyScore func code language)
      = decide ((1:ℚ)/2 < max 0 (classifyScore func code language))
  rw [decide_eq_decide, lt_max_iff]
  constructor
  · exact fun h => Or.inr h
  · rintro (h | h)
    · exact absurd h (by norm_num)
    · exact h

/-! ## Language registry (`_setup_languages`, function_counter.py lines 42-106)

The whole setup runs inside one `try`: the two grammar loads
(`Language(tspython.language())`, `Language(tsjs.language())`) can raise and
then the `except` clause clears both `self.languages` and `self.queries`;
individual query creation failures are caught by inner `try` blocks and only
drop that query.  The oracle booleans record which external calls succeed:
`pyLoadOk`/`jsLoadOk` for the grammar loads, `pyQueryOk i`/`jsQueryOk i` for
creating query `i`. -/

structure LangState where
  languages : List String
  queries : List (String × List String)
deriving Repr

/-- Number of Python query strings (lines 60-69). -/
def pythonQueryCount : Nat := 4

/-- Number of JavaScript query strings (lines 79-94). -/
def jsQueryCount : Nat := 7

/-- The dict key used for query `i` (lines 74 and 99). -/
def queryLabel (i : Nat) : String := "query_" ++ toString i

/-- Source `_setup_languages` (lines 48-106). -/
def setupLanguages (pyLoadOk jsLoadOk : Bool) (pyQueryOk jsQueryOk : Nat → Bool) :
    LangState :=
  if pyLoadOk && jsLoadOk then
    { languages := ["python", "javascript"],
      queries :=
        [("python", ((List.range pythonQueryCount).filter pyQueryOk).map queryLabel),
         ("javascript", ((List.range jsQueryCount).filter jsQueryOk).map queryLabel)] }
  else { languages := [], queries := [] }

/-- Source `is_available` (lines 220-222): `len(self.languages) > 0`. -/
def isAvailable (st : LangState) : Bool := decide (0 < st.languages.length)

/-- Python dict lookup `self.queries[language]` as an `Option`. -/
def lookupQueries (qs : List (String × List String)) (k : String) : Option (List String) :=
  (qs.find? (fun p => p.1 == k)).map (fun p => p.2)

/-! ## Syntax-query extraction (`_extract_functions`, lines 236-353)

Tree-sitter is external: a parse outcome is an oracle value
`Option (List (Option QueryCaptures))` — `none` when `parser.parse` raises
(caught at line 351, yielding `[]`), otherwise one entry per registered query,
each `none` when `query.captures` raises (caught at line 333, `continue`) and
otherwise the captures dict flattened to `(capture_name, nodes)` pairs in
iteration order. -/

/-- A tree-sitter node as the Python code consumes it: 0-based start/end rows
(`start_point[0]`, `end_point[0]`) and its decoded source text. -/
structure TSNode where
  startRow : Nat
  endRow : Nat
  text : String
deriving Repr, DecidableEq

/-- Source `node_key = (node.start_point[0], node.end_point[0])` (line 261). -/
def nodeKey (n : TSNode) : Nat × Nat := (n.startRow, n.endRow)

/-- The capture roles treated as function constructs (lines 266-267). -/
def functionCaptureRoles : List String :=
  ["function", "method", "class", "function_expr",
   "arrow_function", "async_function", "lambda", "object_method"]

/-- One query's `captures` dict: capture name ↦ node list, in iteration order. -/
abbrev QueryCaptures : Type := List (String × List TSNode)

abbrev ParseData : Type := List (Option QueryCaptures)

/-- The `(capture_name, node)` pairs in the order the nested loops at
lines 259-271 visit them. -/
def capturePairs (caps : QueryCaptures) : List (String × TSNode) :=
  caps.bind (fun rn => rn.2.map (fun n => (rn.1, n)))

/-- Source `name_nodes[node_key] = text` (line 265): Python dict assignment keeps the
first-insertion position and overwrites the value. -/
def insertName (m : List ((Nat × Nat) × String)) (k : Nat × Nat) (v : String) :
    List ((Nat × Nat) × String) :=
  if m.any (fun p => p.1 == k) then m.map (fun p => if p.1 == k then (k, v) else p)
  else m ++ [(k, v)]

/-- First pass over one query's captures, `name` branch (lines 263-265). -/
def collectNames (m : List ((Nat × Nat) × String)) :
    List (String × TSNode) → List ((Nat × Nat) × String)
  | [] => m
  | (role, n) :: rest =>
    collectNames (if role == "name" then insertName m (nodeKey n) n.text else m) rest

/-- First pass over one query's captures, construct branch (lines 266-271):
nodes whose role is a function construct are kept unless their
`(start_row, end_row)` key is already in `processed_positions`; the key set
threads through (it is global across queries). -/
def selectNodes (processed : List (Nat × Nat)) :
    List (String × TSNode) → List (Nat × Nat) × List (TSNode × String)
  | [] => (processed, [])
  | (role, n) :: rest =>
    if role ∈ functionCaptureRoles then
      if nodeKey n ∈ processed then selectNodes processed rest
      else
        let r := selectNodes (nodeKey n :: processed) rest
        (r.1, (n, role) :: r.2)
    else selectNodes processed rest

/-! ### Regex fallback name recovery (lines 287-315)

`re.search` on the fixed patterns `def\s+(\w+)`, `class\s+(\w+)`,
`function\s+(\w+)`, `(\w+)\s*=\s*function`, `(\w+)\s*=\s*\(`, `(\w+)\s*\(`,
`async\s+function\s+(\w+)`.  These patterns need no regex backtracking: after a
maximal `\w+`/`\s+` run the next required character is never a word/space
character, so maximal-munch matching at each successive start position is
exactly `re.search`.  `\w`/`\s` are modelled at ASCII width. -/

def isWordChar (c : Char) : Bool := c.isAlphanum || c == '_'

def isSpaceChar (c : Char) : Bool :=
  c == ' ' || c == '\t' || c == '\n' || c == '\r' || c == '\x0b' || c == '\x0c'

/-- Match `LIT\s+(\w+)` at the start of `s`. -/
def matchLitWsWordAt (lit : List Char) (s : List Char) : Option (List Char) :=
  if lit.isPrefixOf s then
    let r1 := (s.drop lit.length)
    if (r1.takeWhile isSpaceChar).isEmpty then none
    else
      let w := (r1.dropWhile isSpaceChar).takeWhile isWordChar
      if w.isEmpty then none else some w
  else none

/-- Match `LIT1\s+LIT2\s+(\w+)` at the start of `s` (the `async function` case). -/
def matchLit2WsWordAt (lit1 lit2 : List Char) (s : List Char) : Option (List Char) :=
  if lit1.isPrefixOf s then
    let r1 := (s.drop lit1.length)
    if (r1.takeWhile isSpaceChar).isEmpty then none
    else matchLitWsWordAt lit2 (r1.dropWhile isSpaceChar)
  else none

/-- Match `(\w+)\s*=\s*LIT` at the start of `s`. -/
def matchWordEqLitAt (lit : List Char) (s : List Char) : Option (List Char) :=
  let w := s.takeWhile isWordChar
  if w.isEmpty then none
  else
    match (s.dropWhile isWordChar).dropWhile isSpaceChar with
    | '=' :: r2 => if lit.isPrefixOf (r2.dropWhile isSpaceChar) then some w else none
    | _ => none

/-- Match `(\w+)\s*\(` at the start of `s`. -/
def matchWordParenAt (s : List Char) : Option (List Char) :=
  let w := s.takeWhile isWordChar
  if w.isEmpty then none
  else
    match (s.dropWhile isWordChar).dropWhile isSpaceChar with
    | '(' :: _ => some w
    | _ => none

/-- Source `re.search`: try the matcher at each successive start position. -/
def reSearch (m : List Char → Option (List Char)) : List Char → Option (List Char)
  | [] => m []
  | c :: rest =>
    match m (c :: rest) with
    | some w => some w
    | none => reSearch m rest

/-- Python branch of the fallback (lines 290-300): note the `elif`, so when
`def ` occurs but the regex fails, the `class` pattern is never tried. -/
def pythonNameFallback (node_text : String) : Option String :=
  let t := node_text.toList
  if pyIn "def ".toList t then
    (reSearch (matchLitWsWordAt "def".toList) t).map String.mk
  else if pyIn "class ".toList t then
    (reSearch (matchLitWsWordAt "class".toList) t).map String.mk
  else none

/-- JavaScript branch (lines 301-315): the five patterns in order, first
successful search wins. -/
def jsNameFallback (node_text : String) : Option String :=
  let t := node_text.toList
  match reSearch (matchLitWsWordAt "function".toList) t with
  | some w => some (String.mk w)
  | none =>
    match reSearch (matchWordEqLitAt "function".toList) t with
    | some w => some (String.mk w)
    | none =>
      match reSearch (matchWordEqLitAt "(".toList) t with
      | some w => some (String.mk w)
      | none =>
        match reSearch matchWordParenAt t with
        | some w => some (String.mk w)
        | none => (reSearch (matchLit2WsWordAt "async".toList "function".toList) t).map String.mk

def regexNameFallback (language : String) (node_text : String) : Option String :=
  if language = "python" then pythonNameFallback node_text
  else if language = "javascript" then jsNameFallback node_text
  else none

/-- Name resolution for one construct node (lines 274-315): first name capture
nested in the node and anchored within 3 rows of its start, else the regex
fallback, else the `anonymous` sentinel.  As in the source, a structural name
that happens to equal `anonymous` still triggers the fallback. -/
def resolveName (language : String) (names : List ((Nat × Nat) × String)) (n : TSNode) :
    String :=
  let structuralName :=
    match names.find? (fun p =>
        decide (n.startRow ≤ p.1.1) && decide (p.1.2 ≤ n.endRow) &&
        decide (p.1.1 ≤ n.startRow + 3)) with
    | some p => p.2
    | none => "anonymous"
  if structuralName = "anonymous" then
    match regexNameFallback language n.text with
    | some w => w
    | none => "anonymous"
  else structuralName

/-- Build the `FunctionInfo` for one selected node (lines 317-331), including
the `end_line < start_line` clamp. -/
def mkFunctionInfo (language : String) (names : List ((Nat × Nat) × String))
    (n : TSNode) (func_type : String) : FunctionInfo :=
  let start_line := n.startRow + 1
  let end_line := if n.endRow + 1 < start_line then start_line else n.endRow + 1
  { name := resolveName language names n
    type := func_type
    start_line := start_line
    end_line := end_line
    line_count := end_line - start_line + 1 }

/-- The candidate records appended to `functions` (lines 246-331), query by
query; `processed` is the global `processed_positions` set. -/
def collectCandidates (language : String) (processed : List (Nat × Nat)) :
    List (Option QueryCaptures) → List FunctionInfo
  | [] => []
  | none :: qs => collectCandidates language processed qs
  | some caps :: qs =>
    (selectNodes processed (capturePairs caps)).2.map
        (fun nr => mkFunctionInfo language (collectNames [] (capturePairs caps)) nr.1 nr.2)
      ++ collectCandidates language (selectNodes processed (capturePairs caps)).1 qs

/-- The dedup key `(func.name, func.start_line, func.end_line)` (line 341). -/
def functionKey (f : FunctionInfo) : String × Nat × Nat :=
  (f.name, f.start_line, f.end_line)

/-- The dedup loop of lines 337-344 (`seen` is the accumulated key set). -/
def dedupGo (seen : List (String × Nat × Nat)) : List FunctionInfo → List FunctionInfo
  | [] => []
  | f :: rest =>
    if functionKey f ∈ seen then dedupGo seen rest
    else f :: dedupGo (functionKey f :: seen) rest

def dedupFunctions (fs : List FunctionInfo) : List FunctionInfo := dedupGo [] fs

/-- Source `unique_functions.sort(key=lambda f: f.start_line)` sorts ascending by
`start_line`; a stable insertion sort matches Python's stable sort. -/
def startLineLe (f g : FunctionInfo) : Prop := f.start_line ≤ g.start_line

instance : DecidableRel startLineLe := fun f g => Nat.decLe f.start_line g.start_line

instance : IsTotal FunctionInfo startLineLe := ⟨fun f g => Nat.le_total f.start_line g.start_line⟩

instance : IsTrans FunctionInfo startLineLe := ⟨fun _ _ _ h1 h2 => Nat.le_trans h1 h2⟩

/-- Source `_extract_functions` (lines 236-353). -/
def extractFunctions (st : LangState) (language : String)
    (parse : Option ParseData) : List FunctionInfo :=
  if ¬(language ∈ st.languages ∧ (lookupQueries st.queries language).isSome) then []
  else
    match parse with
    | none => []
    | some queries =>
      List.insertionSort startLineLe (dedupFunctions (collectCandidates language [] queries))

/-- Counterexample for claim C2: with the Python grammar loading fine and the
JavaScript grammar load raising, the single `except` clause wipes the whole
registry — Python does not remain usable and `is_available()` is false even
though one language had initialized successfully. -/
theorem setup_js_failure_clears_python :
    (setupLanguages true false (fun _ => true) (fun _ => true)).languages = []
    ∧ isAvailable (setupLanguages true false (fun _ => true) (fun _ => true)) = false :=
  ⟨rfl, rfl⟩

/-- Claim C2 (amended): degradation is per-query, not per-grammar: when both
grammar loads succeed, any pattern of individual query failures leaves both
languages registered (with exactly the surviving queries) and the registry
available; and `is_available()` is true iff both grammar loads succeeded,
because a grammar-load failure clears the whole registry. -/
theorem setup_per_query_degradation (pyLoadOk jsLoadOk : Bool)
    (pyQueryOk jsQueryOk : Nat → Bool) :
    isAvailable (setupLanguages pyLoadOk jsLoadOk pyQueryOk jsQueryOk) = (pyLoadOk && jsLoadOk)
    ∧ (setupLanguages true true pyQueryOk jsQueryOk).languages = ["python", "javascript"]
    ∧ lookupQueries (setupLanguages true true pyQueryOk jsQueryOk).queries "python"
        = some (((List.range pythonQueryCount).filter pyQueryOk).map queryLabel)
    ∧ lookupQueries (setupLanguages true true pyQueryOk jsQueryOk).queries "javascript"
        = some (((List.range jsQueryCount).filter jsQueryOk).map queryLabel) := by
  refine ⟨?_, rfl, rfl, rfl⟩
  cases pyLoadOk <;> cases jsLoadOk <;> rfl

/-! ## Span uniqueness and ordering of extraction (claim C1) -/

/-- The 1-based line span of a record. -/
def spanOf (f : FunctionInfo) : Nat × Nat := (f.start_line, f.end_line)

/-- Tree-sitter invariant on parse data: a node ends no earlier than it starts
(`start_point ≤ end_point` row-wise). -/
def rowsOkB (queries : List (Option QueryCaptures)) : Bool :=
  queries.all (fun q =>
    match q with
    | none => true
    | some caps => caps.all (fun rn => rn.2.all (fun n => decide (n.startRow ≤ n.endRow))))

theorem spanOf_mkFunctionInfo (language : String) (names : List ((Nat × Nat) × String))
    (n : TSNode) (t : String) (h : n.startRow ≤ n.endRow) :
    spanOf (mkFunctionInfo language names n t) = (n.startRow + 1, n.endRow + 1) := by
  simp only [spanOf, mkFunctionInfo]
  rw [if_neg (by omega)]

/-- Invariants of the construct-selection pass: the threaded key set only grows,
every selected node is fresh relative to the incoming set, registered in the
outgoing set, drawn from the input pairs, and the selected keys are pairwise
distinct. -/
theorem selectNodes_spec (pairs : List (String × TSNode)) :
    ∀ processed : List (Nat × Nat),
      (∀ k, k ∈ processed → k ∈ (selectNodes processed pairs).1)
      ∧ (∀ x ∈ (selectNodes processed pairs).2,
          nodeKey x.1 ∉ processed ∧ nodeKey x.1 ∈ (selectNodes processed pairs).1
            ∧ (x.2, x.1) ∈ pairs)
      ∧ List.Pairwise (fun a b => nodeKey a.1 ≠ nodeKey b.1) (selectNodes processed pairs).2 := by
  induction pairs with
  | nil =>
    intro processed
    refine ⟨fun k hk => ?_, ?_, ?_⟩ <;> simp [selectNodes]
    exact hk
  | cons p rest ih =>
    intro processed
    obtain ⟨role, n⟩ := p
    by_cases hrole : role ∈ functionCaptureRoles
    · by_cases hmem : nodeKey n ∈ processed
      · rw [selectNodes, if_pos hrole, if_pos hmem]
        obtain ⟨h1, h2, h3⟩ := ih processed
        exact ⟨h1, fun x hx => by
          obtain ⟨a, b, c⟩ := h2 x hx
          exact ⟨a, b, List.mem_cons_of_mem _ c⟩, h3⟩
      · rw [selectNodes, if_pos hrole, if_neg hmem]
        obtain ⟨h1, h2, h3⟩ := ih (nodeKey n :: processed)
        refine ⟨?_, ?_, ?_⟩
        · intro k hk
          exact h1 k (List.mem_cons_of_mem _ hk)
        · intro x hx
          rcases List.mem_cons.mp hx with heq | hx'
          · subst heq
            exact ⟨hmem, h1 _ (List.mem_cons_self _ _), List.mem_cons_self _ _⟩
          · obtain ⟨a, b, c⟩ := h2 x hx'
            exact ⟨fun hk => a (List.mem_cons_of_mem _ hk), b, List.mem_cons_of_mem _ c⟩
        · refine List.Pairwise.cons ?_ h3
          intro y hy heq
          obtain ⟨a, _, _⟩ := h2 y hy
          exact a (heq ▸ List.mem_cons_self _ _)
    · rw [selectNodes, if_neg hrole]
      obtain ⟨h1, h2, h3⟩ := ih processed
      exact ⟨h1, fun x hx => by
        obtain ⟨a, b, c⟩ := h2 x hx
        exact ⟨a, b, List.mem_cons_of_mem _ c⟩, h3⟩

theorem capturePairs_rows (caps : QueryCaptures)
    (h : caps.all (fun rn => rn.2.all (fun n => decide (n.startRow ≤ n.endRow))) = true) :
    ∀ p ∈ capturePairs caps, p.2.startRow ≤ p.2.endRow := by
  intro p hp
  simp only [capturePairs, List.mem_bind, List.mem_map] at hp
  obtain ⟨rn, hrn, n, hn, rfl⟩ := hp
  rw [List.all_eq_true] at h
  have := h rn hrn
  rw [List.all_eq_true] at this
  simpa using this n hn

theorem pairShift_inj {a b : Nat × Nat}
    (h : (a.1 + 1, a.2 + 1) = (b.1 + 1, b.2 + 1)) : a = b := by
  obtain ⟨x1, x2⟩ := a
  obtain ⟨y1, y2⟩ := b
  simp only [Prod.mk.injEq] at h ⊢
  omega

/-- Across the whole query list, candidate spans are pairwise distinct, and each
candidate's span decodes (as `row + 1`) from a key that was not yet processed. -/
theorem collectCandidates_spec (language : String) (qs : List (Option QueryCaptures)) :
    ∀ processed : List (Nat × Nat), rowsOkB qs = true →
      List.Pairwise (fun f g => spanOf f ≠ spanOf g) (collectCandidates language processed qs)
      ∧ ∀ f ∈ collectCandidates language processed qs,
          ∃ k : Nat × Nat, spanOf f = (k.1 + 1, k.2 + 1) ∧ k ∉ processed := by
  induction qs with
  | nil =>
    intro processed _
    simp [collectCandidates]
  | cons q rest ih =>
    intro processed hrows
    rw [rowsOkB, List.all_cons, Bool.and_eq_true] at hrows
    have hrest : rowsOkB rest = true := hrows.2
    cases q with
    | none =>
      rw [collectCandidates]
      exact ih processed hrest
    | some caps =>
      rw [collectCandidates]
      have hcaps := capturePairs_rows caps hrows.1
      obtain ⟨hsub, hmem, hpwsel⟩ := selectNodes_spec (capturePairs caps) processed
      obtain ⟨ihpw, ihex⟩ :=
        ih (selectNodes processed (capturePairs caps)).1 hrest
      have hspanmk : ∀ x ∈ (selectNodes processed (capturePairs caps)).2,
          spanOf (mkFunctionInfo language (collectNames [] (capturePairs caps)) x.1 x.2)
            = ((nodeKey x.1).1 + 1, (nodeKey x.1).2 + 1) := by
        intro x hx
        obtain ⟨-, -, hpmem⟩ := hmem x hx
        exact spanOf_mkFunctionInfo _ _ _ _ (hcaps (x.2, x.1) hpmem)
      constructor
      · rw [List.pairwise_append]
        refine ⟨?_, ihpw, ?_⟩
        · rw [List.pairwise_map]
          refine hpwsel.imp_of_mem ?_
          intro a b ha hb hne heq
          apply hne
          rw [hspanmk a ha, hspanmk b hb] at heq
          exact pairShift_inj heq
        · intro a ha b hb
          rw [List.mem_map] at ha
          obtain ⟨x, hx, rfl⟩ := ha
          obtain ⟨-, hkin, -⟩ := hmem x hx
          obtain ⟨k, hk, hknotin⟩ := ihex b hb
          rw [hspanmk x hx, hk]
          intro heq
          exact hknotin (pairShift_inj heq ▸ hkin)
      · intro f hf
        rw [List.mem_append] at hf
        rcases hf with hf | hf
        · rw [List.mem_map] at hf
          obtain ⟨x, hx, rfl⟩ := hf
          obtain ⟨hnotin, -, -⟩ := hmem x hx
          exact ⟨nodeKey x.1, hspanmk x hx, hnotin⟩
        · obtain ⟨k, hk, hknotin⟩ := ihex f hf
          exact ⟨k, hk, fun hkp => hknotin (hsub k hkp)⟩

/-- If no incoming key collides and all keys are pairwise distinct, the dedup
pass of lines 337-344 is the identity. -/
theorem dedupGo_eq_self (l : List FunctionInfo) :
    ∀ seen : List (String × Nat × Nat), (∀ f ∈ l, functionKey f ∉ seen) →
      List.Pairwise (fun f g => functionKey f ≠ functionKey g) l →
      dedupGo seen l = l := by
  induction l with
  | nil => intro seen _ _; rfl
  | cons f rest ih =>
    intro seen hseen hpw
    rw [dedupGo, if_neg (hseen f (List.mem_cons_self _ _))]
    rw [List.pairwise_cons] at hpw
    congr 1
    refine ih _ ?_ hpw.2
    intro g hg hmem
    rcases List.mem_cons.mp hmem with heq | hmem'
    · exact hpw.1 g hg heq.symm
    · exact hseen g (List.mem_cons_of_mem _ hg) hmem'

/-- Claim C1: for any supported language and any parse outcome whose nodes
satisfy the tree-sitter row invariant, extraction yields at most one record per
distinct `(start_line, end_line)` span (no two records share a span), the output
is sorted ascending by `start_line`, and it is a permutation of the first-seen
candidate list (`processed_positions` keeps only the first construct seen for a
span, so the record kept for each span carries the first-seen kind and name). -/
theorem extract_functions_span_unique_sorted (st : LangState) (language : String)
    (queries : List (Option QueryCaptures))
    (hlang : language ∈ st.languages)
    (hq : (lookupQueries st.queries language).isSome = true)
    (hrows : rowsOkB queries = true) :
    List.Pairwise (fun f g => spanOf f ≠ spanOf g)
        (extractFunctions st language (some queries))
    ∧ List.Sorted startLineLe (extractFunctions st language (some queries))
    ∧ (extractFunctions st language (some queries)).Perm
        (collectCandidates language [] queries) := by
  have hsupp : language ∈ st.languages ∧ (lookupQueries st.queries language).isSome :=
    ⟨hlang, hq⟩
  obtain ⟨hpw, -⟩ := collectCandidates_spec language queries [] hrows
  have hkeys : List.Pairwise (fun f g => functionKey f ≠ functionKey g)
      (collectCandidates language [] queries) := by
    refine hpw.imp ?_
    intro a b hne heq
    exact hne (congrArg Prod.snd heq)
  have hded : dedupFunctions (collectCandidates language [] queries)
      = collectCandidates language [] queries := by
    rw [dedupFunctions]
    exact dedupGo_eq_self _ [] (by simp) hkeys
  have hperm : (extractFunctions st language (some queries)).Perm
      (collectCandidates language [] queries) := by
    rw [extractFunctions, if_neg (not_not_intro hsupp)]
    show (List.insertionSort startLineLe
        (dedupFunctions (collectCandidates language [] queries))).Perm _
    rw [hded]
    exact List.perm_insertionSort startLineLe _
  refine ⟨(List.Perm.pairwise_iff (fun h => Ne.symm h) hperm).mpr hpw, ?_, hperm⟩
  rw [extractFunctions, if_neg (not_not_intro hsupp)]
  exact List.sorted_insertionSort startLineLe _

/-- The registry state after a fully successful initialization. -/
def registryBothOk : LangState := setupLanguages true true (fun _ => true) (fun _ => true)

/-- A concrete parse outcome: one query capturing a name node and a construct
node (a three-line `greet` function). -/
def sampleParse : ParseData :=
  [some [("name", [⟨0, 0, "greet"⟩]), ("function", [⟨0, 2, "def greet(): pass"⟩])]]

/-- Witness for claim C1 at a concrete registry, language and parse outcome. -/
theorem extract_functions_span_unique_sorted_witness :
    ("python" ∈ registryBothOk.languages)
    ∧ (lookupQueries registryBothOk.queries "python").isSome = true
    ∧ rowsOkB sampleParse = true
    ∧ (List.Pairwise (fun f g => spanOf f ≠ spanOf g)
          (extractFunctions registryBothOk "python" (some sampleParse))
        ∧ List.Sorted startLineLe (extractFunctions registryBothOk "python" (some sampleParse))
        ∧ (extractFunctions registryBothOk "python" (some sampleParse)).Perm
            (collectCandidates "python" [] sampleParse)) :=
  ⟨by decide, rfl, rfl,
    extract_functions_span_unique_sorted registryBothOk "python" sampleParse
      (by decide) rfl rfl⟩

/-! ## Code slice extraction (`_extract_function_code`, lines 355-380) -/

/-- Python `s.split(sep)` for a one-character separator: structural splitter,
so that concrete evaluations reduce in the kernel. -/
def splitOnChar (sep : Char) : List Char → List (List Char)
  | [] => [[]]
  | c :: rest =>
    if c == sep then [] :: splitOnChar sep rest
    else
      match splitOnChar sep rest with
      | a :: tail => (c :: a) :: tail
      | [] => [[c]]

/-- Source `source_code.split('\n')` (line 358). -/
def pySplitLines (s : String) : List String := (splitOnChar '\n' s.toList).map String.mk

/-- Source `line.strip() == ''`: the line consists only of whitespace. -/
def isBlankLine (s : String) : Bool := s.toList.all isSpaceChar

/-- Python list slice `l[a:b]` for integer bounds: a negative bound counts from
the end of the list (`max 0 (n + b)`), and bounds past the end are harmless
because `take`/`drop` saturate, exactly as Python's slicing clamps. -/
def pySlice (l : List String) (a b : Int) : List String :=
  let n : Int := l.length
  let ia := if a < 0 then max 0 (n + a) else a
  let ib := if b < 0 then max 0 (n + b) else b
  (l.take ib.toNat).drop ia.toNat

/-- The `while function_lines and function_lines[0].strip() == '': pop(0)` loop
(lines 368-369). -/
def pyTrimLeadingBlank : List String → List String
  | [] => []
  | l :: ls => if isBlankLine l then pyTrimLeadingBlank ls else l :: ls

/-- The `while function_lines and function_lines[-1].strip() == '': pop()` loop
(lines 372-373), expressed through the front-trimming loop on the reverse. -/
def pyTrimTrailingBlank (ls : List String) : List String :=
  (pyTrimLeadingBlank ls.reverse).reverse

/-- Source `_extract_function_code` (lines 355-380): `start_idx = max(0, start_line-1)`,
`end_idx = min(len(lines), end_line)`, slice, trim blank edge lines, join. -/
def extractFunctionCode (source_code : String) (start_line end_line : Int) : String :=
  let lines := pySplitLines source_code
  let start_idx : Int := max 0 (start_line - 1)
  let end_idx : Int := min (lines.length : Int) end_line
  let function_lines := pySlice lines start_idx end_idx
  if function_lines.isEmpty then ""
  else String.intercalate "\n" (pyTrimTrailingBlank (pyTrimLeadingBlank function_lines))

/-- The slice contract as the spec words it, amended only as the counterexample
forces: a 1-based inclusive range, the start clamped up to 1 (a start past the
last line yields nothing), a non-negative end clamped down to the line count,
leading/trailing fully-blank lines dropped.  Negative ends are NOT covered here:
they follow Python's from-the-end slice convention instead. -/
def extractFunctionCodeSpec (source_code : String) (start_line end_line : Int) : String :=
  let lines := pySplitLines source_code
  let s1 : Nat := (max 1 start_line).toNat
  let e1 : Nat := (min (lines.length : Int) end_line).toNat
  let seg := (lines.take e1).drop (s1 - 1)
  String.intercalate "\n" ((seg.dropWhile isBlankLine).reverse.dropWhile isBlankLine).reverse

/-- The claim C7 exactly as stated: BOTH out-of-range endpoints are clamped into
the file's bounds `[1, line count]` before slicing. -/
def extractFunctionCodeClaimed (source_code : String) (start_line end_line : Int) : String :=
  let lines := pySplitLines source_code
  let n : Int := lines.length
  let s1 : Nat := (min (max 1 start_line) n).toNat
  let e1 : Nat := (min (max 1 end_line) n).toNat
  let seg := (lines.take e1).drop (s1 - 1)
  String.intercalate "\n" ((seg.dropWhile isBlankLine).reverse.dropWhile isBlankLine).reverse

theorem pyTrimLeadingBlank_eq_dropWhile (ls : List String) :
    pyTrimLeadingBlank ls = ls.dropWhile isBlankLine := by
  induction ls with
  | nil => rfl
  | cons l ls ih =>
    rw [pyTrimLeadingBlank, List.dropWhile_cons]
    by_cases h : isBlankLine l = true
    · rw [if_pos h, if_pos h, ih]
    · rw [if_neg h, if_neg h]

theorem trim_join_eq (ls : List String) :
    (if ls.isEmpty then ""
     else String.intercalate "\n" (pyTrimTrailingBlank (pyTrimLeadingBlank ls)))
      = String.intercalate "\n"
          ((ls.dropWhile isBlankLine).reverse.dropWhile isBlankLine).reverse := by
  cases ls with
  | nil => rfl
  | cons l ls =>
    rw [if_neg (by simp)]
    rw [pyTrimTrailingBlank, pyTrimLeadingBlank_eq_dropWhile, pyTrimLeadingBlank_eq_dropWhile]

/-- Claim C7 (amended): for any non-negative end line the extractor equals the
spec-side contract (start clamped up to 1, end clamped down to the line count,
out-of-range slices empty, blank edge lines trimmed), and being a total
function it returns a result for every input instead of raising.  (Negative end
lines instead count from the end of the file; see the counterexample.) -/
theorem extract_function_code_spec_eq (source_code : String) (start_line end_line : Int)
    (h : 0 ≤ end_line) :
    extractFunctionCode source_code start_line end_line
      = extractFunctionCodeSpec source_code start_line end_line := by
  rw [extractFunctionCode, extractFunctionCodeSpec]
  have hseg : pySlice (pySplitLines source_code) (max 0 (start_line - 1))
        (min ((pySplitLines source_code).length : Int) end_line)
      = ((pySplitLines source_code).take
          ((min ((pySplitLines source_code).length : Int) end_line).toNat)).drop
          ((max 1 start_line).toNat - 1) := by
    rw [pySlice]
    have h1 : ¬(max 0 (start_line - 1) < (0:Int)) := not_lt.mpr (le_max_left _ _)
    have h2 : ¬(min (((pySplitLines source_code).length : Int)) end_line < 0) :=
      not_lt.mpr (le_min (Int.ofNat_nonneg _) h)
    rw [if_neg h1, if_neg h2]
    congr 1
    rcases le_or_lt start_line 1 with hs | hs
    · rw [max_eq_left (by omega), max_eq_left (by omega)]
      omega
    · rw [max_eq_right (by omega), max_eq_right (by omega)]
      omega
  rw [hseg, trim_join_eq]

/-- Counterexample for claim C7 as stated: with `end_line = -1` the extractor
does not clamp to the file bounds — Python slice semantics make a negative end
count from the end of the file, so lines 1..2 are returned where clamping to
bounds would return line 1 only. -/
theorem extract_function_code_negative_end :
    extractFunctionCode "a\nb\nc" 1 (-1) = "a\nb"
    ∧ extractFunctionCodeClaimed "a\nb\nc" 1 (-1) = "a" :=
  ⟨rfl, rfl⟩

/-- Witness for the amended claim C7 at concrete out-of-range inputs. -/
theorem extract_function_code_spec_eq_witness :
    (0 : Int) ≤ 9
    ∧ extractFunctionCode "\nx\n\ny\n" 0 9 = extractFunctionCodeSpec "\nx\n\ny\n" 0 9 :=
  ⟨by decide, extract_function_code_spec_eq "\nx\n\ny\n" 0 9 (by decide)⟩

/-! ## Per-file analysis (`analyze_file`, lines 382-444) -/

/-- The last `/`-separated component of a path (`Path(file_path).name`). -/
def lastComponent (path : String) : String :=
  match (splitOnChar '/' path.toList).getLast? with
  | some c => String.mk c
  | none => ""

/-- Source `Path(file_path).suffix`: the part of the final component from its last dot,
empty when the dot is absent, leading (hidden files) or trailing. -/
def pathSuffix (file_path : String) : String :=
  let nm := (lastComponent file_path).toList
  match nm.reverse.findIdx? (fun ch => ch == '.') with
  | none => ""
  | some j =>
    let i := nm.length - 1 - j
    if 0 < i ∧ i < nm.length - 1 then String.mk (nm.drop i) else ""

/-- Source `_get_language_from_extension` (lines 224-234); TypeScript is commented out
in the source. -/
def getLanguageFromExtension (file_path : String) : Option String :=
  let ext := lowerStr (pathSuffix file_path)
  if ext = ".py" then some "python"
  else if ext = ".js" ∨ ext = ".jsx" then some "javascript"
  else none

/-- Source `breakdown[key] = breakdown.get(key, 0) + 1` on an insertion-ordered dict. -/
def bumpCount (m : List (String × Nat)) (k : String) : List (String × Nat) :=
  if m.any (fun p => p.1 == k) then m.map (fun p => if p.1 == k then (p.1, p.2 + 1) else p)
  else m ++ [(k, 1)]

/-- The classification pass of `analyze_file` (lines 402-425): with
`include_code` the slice is extracted and stored and classification sees it;
without, classification runs in the degraded mode with empty code. -/
def classifyPass (content language : String) (include_code : Bool)
    (functions : List FunctionInfo) : List FunctionInfo :=
  if include_code then
    functions.map (fun f =>
      let codeStr := extractFunctionCode content (f.start_line : Int) (f.end_line : Int)
      let r := classifyFunction f codeStr language
      { f with code := some codeStr, is_algorithm := r.1,
               algorithm_score := r.2.1, classification_reason := r.2.2 })
  else
    functions.map (fun f =>
      let r := classifyFunction f "" language
      { f with is_algorithm := r.1,
               algorithm_score := r.2.1, classification_reason := r.2.2 })

/-- The `FileAnalysis` assembled at lines 396-440 once reading succeeded. -/
def analyzeFileBody (st : LangState) (file_path language content : String)
    (parse : Option ParseData) (include_code : Bool) : FileAnalysis :=
  let functions := classifyPass content language include_code
    (extractFunctions st language parse)
  { path := file_path
    language := language
    function_count := functions.length
    algorithm_count := (functions.filter (fun f => f.is_algorithm)).length
    functions := functions
    breakdown := functions.foldl (fun m f => bumpCount m f.type) []
    algorithm_breakdown :=
      (functions.filter (fun f => f.is_algorithm)).foldl (fun m f => bumpCount m f.type) [] }

/-- Source `analyze_file` (lines 382-444).  `content` is the optional argument;
`readResult` is the outcome of `open(...).read()` when `content is None`
(`none` = the read raised, caught at line 442); `parse` is the tree-sitter
oracle passed through to extraction. -/
def analyzeFile (st : LangState) (file_path : String) (content : Option String)
    (readResult : Option String) (parse : Option ParseData) (include_code : Bool) :
    Option FileAnalysis :=
  if isAvailable st = false then none
  else
    match getLanguageFromExtension file_path with
    | none => none
    | some language =>
      match (match content with | some t => some t | none => readResult) with
      | none => none
      | some text => some (analyzeFileBody st file_path language text parse include_code)

/-- Claim C10: `analyze_file` is total (never raises) and returns `None` exactly
when no language backend is available, or the extension maps to no supported
language, or no content was supplied and the file read fails; in every other
case a `FileAnalysis` is returned.  (Parse and per-query failures are caught
inside `_extract_functions` and yield an analysis with zero functions, not
`None`.) -/
theorem analyze_file_none_iff (st : LangState) (file_path : String)
    (content readResult : Option String) (parse : Option ParseData) (include_code : Bool) :
    analyzeFile st file_path content readResult parse include_code = none
      ↔ (isAvailable st = false ∨ getLanguageFromExtension file_path = none
          ∨ (content = none ∧ readResult = none)) := by
  rw [analyzeFile.eq_def]
  by_cases hav : isAvailable st = false
  · simp [hav]
  · rw [if_neg hav]
    cases hlang : getLanguageFromExtension file_path with
    | none => simp [hav]
    | some language =>
      cases content with
      | some t => simp [hav]
      | none =>
        cases readResult with
        | none => simp [hav]
        | some t => simp [hav]

/-! ## Score bounds (claim C5) -/

/-- The persistence-time clamp of database_service.py (lines 224-225):
`safe_algorithm_score = min(max(algorithm_score, 0.0), 1.0)`. -/
def savedScore (algorithm_score : ℚ) : ℚ := min (max algorithm_score 0) 1

theorem analyzeFileBody_scores_nonneg (st : LangState) (fp lang text : String)
    (parse : Option ParseData) (ic : Bool) :
    ∀ f ∈ (analyzeFileBody st fp lang text parse ic).functions, 0 ≤ f.algorithm_score := by
  intro f hf
  have hf' : f ∈ classifyPass text lang ic (extractFunctions st lang parse) := hf
  rw [classifyPass] at hf'
  cases ic with
  | true =>
    rw [if_pos rfl] at hf'
    rw [List.mem_map] at hf'
    obtain ⟨g, hg, rfl⟩ := hf'
    exact le_max_left 0 _
  | false =>
    rw [if_neg (by simp)] at hf'
    rw [List.mem_map] at hf'
    obtain ⟨g, hg, rfl⟩ := hf'
    exact le_max_left 0 _

/-- Every result of `analyze_file` is `None` or an `analyzeFileBody`. -/
theorem analyzeFile_shape (st : LangState) (fp : String) (c r : Option String)
    (p : Option ParseData) (ic : Bool) :
    analyzeFile st fp c r p ic = none
    ∨ ∃ lang text, analyzeFile st fp c r p ic
        = some (analyzeFileBody st fp lang text p ic) := by
  rw [analyzeFile.eq_def]
  by_cases hav : isAvailable st = false
  · left
    rw [if_pos hav]
  · rw [if_neg hav]
    cases getLanguageFromExtension fp with
    | none => left; rfl
    | some lang =>
      cases c with
      | some t => right; exact ⟨lang, t, rfl⟩
      | none =>
        cases r with
        | none => left; rfl
        | some t => right; exact ⟨lang, t, rfl⟩

/-- Claim C5 (amended): scores attached by classification/analysis are clamped
below at 0 but are NOT bounded above by 1; the `[0,1]` interval holds only
after the persistence-time clamp `min(max(s, 0), 1)` applied by the database
layer. -/
theorem analysis_scores_nonneg_persistence_in_unit :
    (∀ (func : FunctionInfo) (code language : String),
        0 ≤ (classifyFunction func code language).2.1)
    ∧ (∀ q : ℚ, 0 ≤ savedScore q ∧ savedScore q ≤ 1)
    ∧ (∀ (st : LangState) (file_path : String) (content readResult : Option String)
        (parse : Option ParseData) (include_code : Bool),
        ((analyzeFile st file_path content readResult parse include_code).map
            (fun a => a.functions.all (fun f => decide (0 ≤ f.algorithm_score)))).getD true
          = true) := by
  refine ⟨fun f c l => le_max_left 0 _,
    fun q => ⟨le_min (le_max_right _ _) zero_le_one, min_le_right _ _⟩, ?_⟩
  intro st fp c r p ic
  rcases analyzeFile_shape st fp c r p ic with h | ⟨lang, text, h⟩
  · rw [h]
    rfl
  · rw [h]
    show (analyzeFileBody st fp lang text p ic).functions.all
        (fun f => decide (0 ≤ f.algorithm_score)) = true
    rw [List.all_eq_true]
    intro f hf
    exact decide_eq_true (analyzeFileBody_scores_nonneg st fp lang text p ic f hf)

/-- A parse outcome with a single five-line function named `sort`. -/
def sortParse : ParseData :=
  [some [("name", [⟨0, 0, "sort"⟩]), ("function", [⟨0, 4, "def sort(l):"⟩])]]

def sortContent : String := "def sort(l):\n    a1\n    a2\n    a3\n    a4"

/-- The record extraction produces for `sortParse`. -/
def sortRecord : FunctionInfo := ⟨"sort", "function", 1, 5, 5, none, false, 0, ""⟩

/-- Counterexample for claim C5 as stated: a full `analyze_file` run stores
`algorithm_score = 3` (the `sort` name bonus) on the produced record — outside
`[0, 1]`. -/
theorem analysis_score_exceeds_unit_interval :
    ((analyzeFile registryBothOk "s.py" (some sortContent) none (some sortParse) true).map
        (fun a => a.functions.map (fun f => f.algorithm_score))) = some [3]
    ∧ ¬((3:ℚ) ≤ 1) := by
  constructor
  · have hscore : classifyScore sortRecord sortContent "python" = 3 := by
      rw [classifyScore_eq]
      norm_num [utilityBlock, algorithmBlock, loopBlock, nestedBlock, recursionBlock,
        mathBlock, condBlock, dsBlock, sizeBlock, businessBlock, languageBlock,
        show sortRecord.name = "sort" from rfl,
        show sortRecord.line_count = 5 from rfl,
        show utilityPatterns.filter (fun p => pyInStr p (lowerStr "sort")) = [] from rfl,
        show algorithmPatterns.filter (fun p => pyInStr p (lowerStr "sort")) = ["sort"] from rfl,
        show businessPatterns.filter (fun p => pyInStr p (lowerStr "sort")) = [] from rfl,
        show countLoops (lowerStr sortContent) = 0 from rfl,
        show pyInStr "return " (lowerStr sortContent) = false from rfl,
        show countAll mathPatterns (lowerStr sortContent) = 0 from rfl,
        show countAll conditionPatterns (lowerStr sortContent) = 0 from rfl,
        show countAll dsPatterns (lowerStr sortContent) = 0 from rfl,
        show pyInStr "__" "sort" = false from rfl,
        show sortContent.isEmpty = false from rfl]
    have h0 : analyzeFile registryBothOk "s.py" (some sortContent) none (some sortParse) true
        = some (analyzeFileBody registryBothOk "s.py" "python" sortContent (some sortParse) true) :=
      rfl
    have h1 : extractFunctions registryBothOk "python" (some sortParse) = [sortRecord] := rfl
    have h2 : extractFunctionCode sortContent (sortRecord.start_line : Int)
        (sortRecord.end_line : Int) = sortContent := rfl
    have h3 : (analyzeFileBody registryBothOk "s.py" "python" sortContent (some sortParse)
          true).functions
        = [({ sortRecord with
              code := some sortContent
              is_algorithm := (classifyFunction sortRecord sortContent "python").1
              algorithm_score := (classifyFunction sortRecord sortContent "python").2.1
              classification_reason :=
                (classifyFunction sortRecord sortContent "python").2.2 } : FunctionInfo)] := by
      show classifyPass sortContent "python" true
          (extractFunctions registryBothOk "python" (some sortParse)) = _
      rw [h1, classifyPass, if_pos rfl]
      simp only [List.map_cons, List.map_nil]
      rw [h2]
    rw [h0, Option.map_some', h3]
    simp only [List.map_cons, List.map_nil]
    have h4 : (classifyFunction sortRecord sortContent "python").2.1
        = max 0 (classifyScore sortRecord sortContent "python") := rfl
    rw [h4, hscore]
    norm_num
  · norm_num

/-! ## The `get_value` scenario (claim C8) -/

def getValueRecord : FunctionInfo := ⟨"get_value", "function", 1, 2, 2, none, false, 0, ""⟩

/-- Two nested `for` loops in a 2-line body. -/
def loopyCode : String := "for i in a:\n for j in b: pass"

/-- Claim C8 (amended): a record named `get_value` spanning 2 lines is
classified non-algorithmic with raw score ≤ 0 PROVIDED its code text carries no
overriding code signals: no counted loop construct, no recursion signal, at
most 3 math tokens, at most 2 conditional tokens, at most 1 data-structure
call.  (This holds in particular for the degraded no-code mode.  Without these
provisos the claim fails; see the counterexample.) -/
theorem get_value_short_utility_classification (func : FunctionInfo) (code language : String)
    (hname : func.name = "get_value") (hlc : func.line_count = 2)
    (hloop : countLoops (lowerStr code) = 0)
    (hrec : pyInStr "get_value" code = false ∨ pyInStr "return " (lowerStr code) = false)
    (hmath : countAll mathPatterns (lowerStr code) ≤ 3)
    (hcond : countAll conditionPatterns (lowerStr code) ≤ 2)
    (hds : countAll dsPatterns (lowerStr code) ≤ 1) :
    (classifyFunction func code language).1 = false
    ∧ classifyScore func code language ≤ 0 := by
  have hu : (utilityBlock (lowerStr "get_value")).1 = -2 := by
    rw [utilityBlock,
      show utilityPatterns.filter (fun p => pyInStr p (lowerStr "get_value")) = ["get"] from rfl]
    norm_num
  have ha : (algorithmBlock (lowerStr "get_value")).1 = 0 := by
    rw [algorithmBlock,
      show algorithmPatterns.filter (fun p => pyInStr p (lowerStr "get_value")) = [] from rfl]
    norm_num
  have hb : (businessBlock (lowerStr "get_value")).1 = 0 := by
    rw [businessBlock,
      show businessPatterns.filter (fun p => pyInStr p (lowerStr "get_value")) = [] from rfl]
    norm_num
  have hsz : (sizeBlock 2).1 = -1 := by norm_num [sizeBlock]
  have hgb : (languageBlock language "get_value").1 = 0 := by
    have h9 : pyInStr "__" "get_value" = false := rfl
    simp [languageBlock, h9]
  have hlb : (loopBlock (lowerStr code)).1 = 0 := by
    simp [loopBlock, hloop]
  have hnb : (nestedBlock (lowerStr code)).1 = 0 := by
    simp [nestedBlock, hloop]
  have hrb : (recursionBlock "get_value" code (lowerStr code)).1 = 0 := by
    rcases hrec with h | h <;> simp [recursionBlock, h]
  have hmb : (mathBlock (lowerStr code)).1 = 0 := by
    have : ¬(3 < countAll mathPatterns (lowerStr code)) := not_lt.mpr hmath
    simp [mathBlock, this]
  have hcb : (condBlock (lowerStr code)).1 = 0 := by
    have : ¬(2 < countAll conditionPatterns (lowerStr code)) := not_lt.mpr hcond
    simp [condBlock, this]
  have hdb : (dsBlock (lowerStr code)).1 = 0 := by
    have : ¬(1 < countAll dsPatterns (lowerStr code)) := not_lt.mpr hds
    simp [dsBlock, this]
  have hscore : classifyScore func code language ≤ 0 := by
    rw [classifyScore_eq, hname, hlc, hu, ha, hb, hsz, hgb]
    by_cases hce : code.isEmpty = true
    · rw [if_pos hce]
      norm_num
    · rw [if_neg hce, hlb, hnb, hrb, hmb, hcb, hdb]
      norm_num
  refine ⟨?_, hscore⟩
  show decide ((1:ℚ)/2 < classifyScore func code language) = false
  rw [decide_eq_false_iff_not]
  exact not_lt.mpr (le_trans hscore (by norm_num))

/-- Witness for the amended claim C8: the degraded no-code mode. -/
theorem get_value_short_utility_classification_witness :
    getValueRecord.name = "get_value" ∧ getValueRecord.line_count = 2
    ∧ countLoops (lowerStr "") = 0
    ∧ (pyInStr "get_value" "" = false ∨ pyInStr "return " (lowerStr "") = false)
    ∧ countAll mathPatterns (lowerStr "") ≤ 3
    ∧ countAll conditionPatterns (lowerStr "") ≤ 2
    ∧ countAll dsPatterns (lowerStr "") ≤ 1
    ∧ ((classifyFunction getValueRecord "" "javascript").1 = false
        ∧ classifyScore getValueRecord "" "javascript" ≤ 0) :=
  ⟨rfl, rfl, rfl, Or.inl rfl, by decide, by decide, by decide,
    get_value_short_utility_classification getValueRecord "" "javascript" rfl rfl rfl
      (Or.inl rfl) (by decide) (by decide) (by decide)⟩

/-- Counterexample for claim C8 as stated: a 2-line `get_value` whose body has
two nested loops scores -2 (name) - 1 (short) + 3 (loops) + 2 (nested) = 2 > 0.5,
so it IS classified as an algorithm with positive raw score. -/
theorem get_value_two_lines_classified_algorithm :
    (classifyFunction getValueRecord loopyCode "python").1 = true
    ∧ ¬(classifyScore getValueRecord loopyCode "python" ≤ 0) := by
  have hscore : classifyScore getValueRecord loopyCode "python" = 2 := by
    rw [classifyScore_eq]
    norm_num [utilityBlock, algorithmBlock, loopBlock, nestedBlock, recursionBlock,
      mathBlock, condBlock, dsBlock, sizeBlock, businessBlock, languageBlock,
      show getValueRecord.name = "get_value" from rfl,
      show getValueRecord.line_count = 2 from rfl,
      show utilityPatterns.filter (fun p => pyInStr p (lowerStr "get_value")) = ["get"] from rfl,
      show algorithmPatterns.filter (fun p => pyInStr p (lowerStr "get_value")) = [] from rfl,
      show businessPatterns.filter (fun p => pyInStr p (lowerStr "get_value")) = [] from rfl,
      show countLoops (lowerStr loopyCode) = 2 from rfl,
      show pyInStr "for " (lowerStr loopyCode) = true from rfl,
      show pyInStr "get_value" loopyCode = false from rfl,
      show countAll mathPatterns (lowerStr loopyCode) = 0 from rfl,
      show countAll conditionPatterns (lowerStr loopyCode) = 2 from rfl,
      show countAll dsPatterns (lowerStr loopyCode) = 0 from rfl,
      show pyInStr "__" "get_value" = false from rfl,
      show loopyCode.isEmpty = false from rfl]
  constructor
  · show decide ((1:ℚ)/2 < classifyScore getValueRecord loopyCode "python") = true
    rw [hscore, decide_eq_true_eq]
    norm_num
  · rw [hscore]
    norm_num

/-! ## The nested-loop bonus condition (claim C6) -/

/-- The nested-loop bonus exactly as claim C6 words it: a flat 2.0 whenever
more than one loop construct is counted. -/
def nestedBlockClaim (code_lower : String) : ℚ × List String :=
  if 1 < countLoops code_lower then (2, ["nested loops detected"]) else (0, [])

/-- Variant of `classifyScore` with the nested-loop bonus replaced by claim C6's
version (a claim-side definition, not translated from the source). -/
def classifyScoreClaimC6 (func : FunctionInfo) (code : String) (language : String) : ℚ :=
  (utilityBlock (lowerStr func.name)).1 + (algorithmBlock (lowerStr func.name)).1
    + (if code.isEmpty then 0 else
        (loopBlock (lowerStr code)).1 + (nestedBlockClaim (lowerStr code)).1
        + (recursionBlock func.name code (lowerStr code)).1
        + (mathBlock (lowerStr code)).1 + (condBlock (lowerStr code)).1
        + (dsBlock (lowerStr code)).1)
    + (sizeBlock func.line_count).1 + (businessBlock (lowerStr func.name)).1
    + (languageBlock language func.name).1

theorem nestedBlock_fst (code_lower : String) :
    (nestedBlock code_lower).1
      = if 1 < countLoops code_lower
          ∧ (pyInStr "for " code_lower = true ∨ pyInStr "while " code_lower = true)
        then (2:ℚ) else 0 := by
  rw [nestedBlock]
  by_cases h : 1 < countLoops code_lower
      ∧ (pyInStr "for " code_lower = true ∨ pyInStr "while " code_lower = true)
  · rw [if_pos h, if_pos h]
  · rw [if_neg h, if_neg h]

theorem nestedBlockClaim_fst (code_lower : String) :
    (nestedBlockClaim code_lower).1 = if 1 < countLoops code_lower then (2:ℚ) else 0 := by
  rw [nestedBlockClaim]
  by_cases h : 1 < countLoops code_lower
  · rw [if_pos h, if_pos h]
  · rw [if_neg h, if_neg h]

/-- The exact gap between claim C6's reading and the source: the flat 2.0 bonus
is missing exactly when the loop count exceeds one but neither `for ` nor
`while ` occurs literally (i.e. all counted constructs are higher-order calls). -/
theorem claimC6_diff (func : FunctionInfo) (code language : String) :
    classifyScoreClaimC6 func code language
      = classifyScore func code language
        + (if code.isEmpty then 0
           else if 1 < countLoops (lowerStr code)
               ∧ ¬(pyInStr "for " (lowerStr code) = true
                    ∨ pyInStr "while " (lowerStr code) = true)
             then (2:ℚ) else 0) := by
  rw [classifyScore_eq, classifyScoreClaimC6]
  by_cases hce : code.isEmpty = true
  · rw [if_pos hce, if_pos hce, if_pos hce]
    ring
  · rw [if_neg hce, if_neg hce, if_neg hce, nestedBlockClaim_fst, nestedBlock_fst]
    by_cases h1 : 1 < countLoops (lowerStr code)
    · by_cases h2 : pyInStr "for " (lowerStr code) = true
          ∨ pyInStr "while " (lowerStr code) = true
      · rw [if_pos h1, if_pos ⟨h1, h2⟩, if_neg (fun hc => hc.2 h2)]
        ring
      · rw [if_pos h1, if_neg (fun hc => h2 hc.2), if_pos ⟨h1, h2⟩]
        ring
    · rw [if_neg h1, if_neg (fun hc => h1 hc.1), if_neg (fun hc => h1 hc.1)]
      ring

/-- Claim C6 (amended): the flat 2.0 nested-loop bonus is added only when, in
addition to more than one counted loop construct, the code text literally
contains `for ` or `while `; when the count comes entirely from higher-order
iteration calls, no bonus is added.  Stated as the exact difference between the
claimed scoring and the source scoring. -/
theorem nested_loop_bonus_needs_keyword (func : FunctionInfo) (code language : String) :
    classifyScoreClaimC6 func code language
      = classifyScore func code language
        + (if code.isEmpty then 0
           else if 1 < countLoops (lowerStr code)
               ∧ ¬(pyInStr "for " (lowerStr code) = true
                    ∨ pyInStr "while " (lowerStr code) = true)
             then (2:ℚ) else 0) :=
  claimC6_diff func code language

def mapOnlyRecord : FunctionInfo := ⟨"demo", "function", 1, 4, 4, none, false, 0, ""⟩

/-- Two higher-order iteration calls and no loop keyword. -/
def mapOnlyCode : String := "x = map(map(y))"

/-- Counterexample for claim C6 as stated: two `map(` calls give a loop count of
2 (> 1), yet the source adds no nested-loop bonus, so the claimed score differs
from the actual score. -/
theorem nested_loop_bonus_not_flat :
    countLoops (lowerStr mapOnlyCode) = 2
    ∧ (nestedBlock (lowerStr mapOnlyCode)).1 = 0
    ∧ classifyScoreClaimC6 mapOnlyRecord mapOnlyCode "python"
        ≠ classifyScore mapOnlyRecord mapOnlyCode "python" := by
  refine ⟨rfl, ?_, ?_⟩
  · rw [nestedBlock_fst]
    rw [if_neg]
    intro hc
    rcases hc.2 with h | h
    · exact absurd h (by decide)
    · exact absurd h (by decide)
  · rw [claimC6_diff]
    rw [if_neg (show ¬(mapOnlyCode.isEmpty = true) by decide)]
    rw [if_pos]
    · intro h
      linarith
    · refine ⟨by decide, ?_⟩
      intro hc
      rcases hc with h | h
      · exact absurd h (by decide)
      · exact absurd h (by decide)

/-! ## Directory scanning (file_scanner.py lines 18-83) -/

/-- A directory's entries: files and subdirectories in listing order. -/
inductive FSForest where
  | nil
  | consFile (fname : String) (rest : FSForest)
  | consDir (dname : String) (entries : FSForest) (rest : FSForest)
deriving Repr

/-- Source `self.ignore_dirs` (file_scanner.py lines 24-28). -/
def ignoreDirsDefault : List String :=
  ["node_modules", ".git", "__pycache__", "dist", "build",
   ".next", "coverage", ".pytest_cache", "venv", "env",
   ".env", "logs", "tmp", "temp", ".cache", ".idea", ".vscode"]

/-- Source `self.target_extensions` (file_scanner.py line 21). -/
def targetExtensions : List String := [".js", ".py", ".ts", ".jsx", ".tsx"]

/-- The per-directory file pass of `os.walk` in `_find_target_files`
(lines 76-81): files with a target extension, in listing order. -/
def dirFiles (exts : List String) (path : String) : FSForest → List String
  | .nil => []
  | .consFile fn rest =>
    (if pathSuffix fn ∈ exts then [path ++ "/" ++ fn] else []) ++ dirFiles exts path rest
  | .consDir _ _ rest => dirFiles exts path rest

/-- The descent of `os.walk` after `dirs[:] = [d for d in dirs if d not in
self.ignore_dirs]` (line 74): subdirectories whose name is ignored are dropped
from the walk before descending. -/
def walkSubdirs (ignore exts : List String) (path : String) : FSForest → List String
  | .nil => []
  | .consFile _ rest => walkSubdirs ignore exts path rest
  | .consDir dn entries rest =>
    (if dn ∈ ignore then []
     else dirFiles exts (path ++ "/" ++ dn) entries
          ++ walkSubdirs ignore exts (path ++ "/" ++ dn) entries)
      ++ walkSubdirs ignore exts path rest

/-- Source `_find_target_files` (lines 67-83) over the root directory's entries. -/
def findTargetFiles (ignore exts : List String) (path : String) (entries : FSForest) :
    List String :=
  dirFiles exts path entries ++ walkSubdirs ignore exts path entries

/-- Replace the entries of every ignored directory by nothing. -/
def pruneForest (ignore : List String) : FSForest → FSForest
  | .nil => .nil
  | .consFile fn rest => .consFile fn (pruneForest ignore rest)
  | .consDir dn entries rest =>
    .consDir dn (if dn ∈ ignore then .nil else pruneForest ignore entries)
      (pruneForest ignore rest)

theorem dirFiles_prune (ignore exts : List String) (path : String) (f : FSForest) :
    dirFiles exts path (pruneForest ignore f) = dirFiles exts path f := by
  induction f generalizing path with
  | nil => rfl
  | consFile fn rest ih => simp [pruneForest, dirFiles, ih]
  | consDir dn entries rest ihe ihr => simp [pruneForest, dirFiles, ihr]

theorem walkSubdirs_prune (ignore exts : List String) (path : String) (f : FSForest) :
    walkSubdirs ignore exts path (pruneForest ignore f)
      = walkSubdirs ignore exts path f := by
  induction f generalizing path with
  | nil => rfl
  | consFile fn rest ih => simp [pruneForest, walkSubdirs, ih]
  | consDir dn entries rest ihe ihr =>
    rw [pruneForest, walkSubdirs, walkSubdirs]
    by_cases h : dn ∈ ignore
    · rw [if_pos h, if_pos h, ihr]
    · rw [if_neg h, if_neg h, ihr, ihe, dirFiles_prune, if_neg h]

/-- The file scanner really prunes: the scan result never depends on anything
inside a directory whose name is on the ignore list (its entire subtree can be
replaced by nothing without changing the output). -/
theorem findTargetFiles_prune (ignore exts : List String) (path : String) (f : FSForest) :
    findTargetFiles ignore exts path (pruneForest ignore f)
      = findTargetFiles ignore exts path f := by
  rw [findTargetFiles, findTargetFiles, dirFiles_prune, walkSubdirs_prune]

/-! ## `analyze_directory` (function_counter.py lines 446-491)

`Path.rglob(pattern)` and `Path.match(pattern)` are modelled faithfully to
Python semantics: `rglob` enumerates every descendant whose final name matches
the glob, and `match` with a relative pattern compares the LAST `len(parts)`
path components right-to-left, with `**` behaving like a plain `*` (pathlib's
`match` does not support recursive wildcards — the crux of scenario D). -/

/-- fnmatch-style matching of one component against a pattern over the `*`
wildcard (the only metacharacter the fixed pattern lists use); fuel bounds the
backtracking and `length pat + length s + 1` always suffices. -/
def compMatchFuel : Nat → List Char → List Char → Bool
  | 0, _, _ => false
  | _ + 1, [], [] => true
  | _ + 1, [], _ :: _ => false
  | f + 1, '*' :: ps, [] => compMatchFuel f ps []
  | f + 1, '*' :: ps, c :: ss =>
    compMatchFuel f ps (c :: ss) || compMatchFuel f ('*' :: ps) ss
  | _ + 1, _ :: _, [] => false
  | f + 1, p :: ps, c :: ss => p == c && compMatchFuel f ps ss

def compMatch (pat s : List Char) : Bool :=
  compMatchFuel (pat.length + s.length + 1) pat s

def fnmatchStr (pat name : String) : Bool := compMatch pat.toList name.toList

/-- Source `PurePath.match` with a relative pattern: the last `len(parts)` components
must each fnmatch the corresponding pattern part. -/
def pyPathMatch (comps : List String) (pattern : String) : Bool :=
  let parts := (splitOnChar '/' pattern.toList).map String.mk
  decide (parts.length ≤ comps.length)
    && ((comps.drop (comps.length - parts.length)).zip parts).all
        (fun pc => fnmatchStr pc.2 pc.1)

/-- Default `include_patterns` (line 454). -/
def includeDefaultPatterns : List String := ["*.py", "*.js", "*.jsx", "*.ts", "*.tsx"]

/-- Default `exclude_patterns` (line 455). -/
def excludeDefaultPatterns : List String :=
  ["**/node_modules/**", "**/__pycache__/**", "**/.*/**"]

/-- Source `languages_stats` update (lines 477-483) on an insertion-ordered dict:
language ↦ (files, functions, algorithms). -/
def bumpLangStats (m : List (String × Nat × Nat × Nat)) (lang : String)
    (fns algs : Nat) : List (String × Nat × Nat × Nat) :=
  if m.any (fun p => p.1 == lang) then
    m.map (fun p =>
      if p.1 == lang then (p.1, p.2.1 + 1, p.2.2.1 + fns, p.2.2.2 + algs) else p)
  else m ++ [(lang, 1, fns, algs)]

/-- The selection of lines 464-470: for each include pattern, every listed
filesystem entry whose final name matches it, minus entries matching an exclude
pattern, keeping files only.  The filesystem is its `rglob` enumeration: each
entry is (path components from the scan root, is-file flag). -/
def selectedPaths (listing : List (List String × Bool)) : List (List String) :=
  includeDefaultPatterns.bind (fun pat =>
    (listing.filter (fun e =>
        fnmatchStr pat (e.1.getLastD "")
        && !(excludeDefaultPatterns.any (fun ex => pyPathMatch e.1 ex))
        && e.2)).map (fun e => e.1))

/-- The per-file accumulation of lines 470-483. -/
def analyzeDirectoryStep (st : LangState)
    (oracle : List String → Option String × Option ParseData) (include_code : Bool)
    (acc : FunctionAnalysisResult) (comps : List String) : FunctionAnalysisResult :=
  match analyzeFile st (String.intercalate "/" comps) none (oracle comps).1
      (oracle comps).2 include_code with
  | none => acc
  | some a =>
    { total_functions := acc.total_functions + a.function_count
      total_algorithms := acc.total_algorithms + a.algorithm_count
      total_files := acc.total_files + 1
      languages := bumpLangStats acc.languages a.language a.function_count a.algorithm_count
      files := acc.files ++ [a] }

/-- Source `analyze_directory` (lines 446-491) with the default include/exclude
patterns; `oracle` supplies each file's read and parse outcomes. -/
def analyzeDirectory (st : LangState) (listing : List (List String × Bool))
    (oracle : List String → Option String × Option ParseData) (include_code : Bool) :
    FunctionAnalysisResult :=
  if isAvailable st = false then ⟨0, 0, 0, [], []⟩
  else (selectedPaths listing).foldl (analyzeDirectoryStep st oracle include_code)
    ⟨0, 0, 0, [], []⟩

/-- A repository whose only eligible file lives two levels below the scan root,
inside `node_modules/sub/`. -/
def bugListing : List (List String × Bool) :=
  [(["repo", "node_modules", "sub", "a.py"], true)]

def emptyReadOracle : List String → Option String × Option ParseData :=
  fun _ => (some "", some [])

/-- Claim C3 evaluated at the failing input: a file nested two levels below
`node_modules` is NOT excluded (pathlib's `match` checks only the last three
components against `**/node_modules/**`), so `analyze_directory` analyzes it and
reports `total_files = 1` where scenario D requires 0. -/
theorem analyzeDirectory_descends_into_nested_ignored_dir :
    (analyzeDirectory registryBothOk bugListing emptyReadOracle false).total_files = 1
    ∧ pyPathMatch ["repo", "node_modules", "sub", "a.py"] "**/node_modules/**" = false :=
  ⟨rfl, rfl⟩
